import Mathlib

/-!
# Verification of `send_todoist_today.py`

A shallow embedding of the scheduled notification script: it gates on the
local time (Europe/Paris weekday and hour), fetches tasks and projects from
the Todoist API, filters tasks by a target label, composes a MarkdownV2
message, and posts it to Telegram.

Modelling conventions:
* Network calls are external collaborators: their responses are inputs
  (`NetBehavior`), with `Except` capturing `raise_for_status` failures.
* The current instant is an input: `weekday` (0 = Monday .. 6 = Sunday,
  as Python's `datetime.weekday()`), `hour`, and the `strftime`-rendered
  date string consumed by the message header.
* Python strings are `String`; Python's string `<` (code-point
  lexicographic) is modelled by the executable `ltCh` on the character
  lists.  Python `dict` is an association list where the last binding
  wins, as in a dict comprehension.
* Exit codes (`sys.exit`) and stderr output are reified on `RunResult`.
-/

namespace SendTodoistToday



/-- The MarkdownV2 punctuation set from `md_v2_escape`
(`escape_chars = r'_*[]()~`>#+-=|{}.!'`). -/
def escape_chars : String := "_*[]()~`>#+-=|\x7b\x7d.!"

/-- Per-character escaping: characters in `escape_chars` get a preceding
backslash, all others pass through (list-of-chars level). -/
def escChar (c : Char) : List Char :=
  if c ∈ escape_chars.data then ['\\', c] else [c]

/-- List-of-chars form of `md_v2_escape`. -/
def mdEscapeL (cs : List Char) : List Char := cs.flatMap escChar

/-- Function `md_v2_escape(text)` of the script:
`''.join('\\' + c if c in escape_chars else c for c in text)`. -/
def md_v2_escape (text : String) : String :=
  String.join (text.data.map (fun c =>
    if c ∈ escape_chars.data then ("\\" ++ String.singleton c)
    else String.singleton c))

/-- A Todoist task as consumed by the script: every field is read with
`t.get(...)` and so may be absent. `order` is the display-order integer. -/
structure Task where
  content : Option String
  labels : Option (List String)
  project_id : Option String
  order : Option Int
deriving DecidableEq, Repr

/-- A Todoist project: an identifier and a name. -/
structure Project where
  id : String
  name : String
deriving DecidableEq, Repr

/-- Constant `TARGET_LABEL_NAMES = {"@Главное на сегодня", "Главное на сегодня"}`. -/
def TARGET_LABEL_NAMES : List String := ["@Главное на сегодня", "Главное на сегодня"]

/-- The filtering step of `fetch_tasks_with_label`: keep tasks whose
label list (`t.get("labels") or []`) meets `label_names`.  The HTTP GET
itself is an external input (see `NetBehavior.tasksResp`). -/
def fetch_tasks_with_label (label_names : List String) (tasks : List Task) : List Task :=
  tasks.filter (fun t => (t.labels.getD []).any (fun lbl => label_names.contains lbl))

/-- Function `fetch_projects_map`: `{str(p["id"]): p["name"] for p in projects}`
as an association list (later entries shadow earlier ones, see `dictGet`). -/
def fetch_projects_map (projects : List Project) : List (String × String) :=
  projects.map (fun p => (p.id, p.name))

/-- Python `dict.get(k, d)` on an association list built left to right with
overwriting: the last binding of `k` wins. -/
def dictGet (m : List (String × String)) (k d : String) : String :=
  match m.reverse.find? (fun pr => pr.1 == k) with
  | some pr => pr.2
  | none => d

/-- Helper `project_name(task)` inside `compose_message`:
`projects_map.get(str(task.get("project_id","")), "")`. -/
def project_name (projects_map : List (String × String)) (t : Task) : String :=
  dictGet projects_map (t.project_id.getD "") ""

/-- The rendered project label:
`projects_map.get(str(t.get("project_id","")), "Без проекта")`. -/
def projectDisplay (projects_map : List (String × String)) (t : Task) : String :=
  dictGet projects_map (t.project_id.getD "") "Без проекта"

/-- The sort key of `compose_message`:
`(project_name(t), t.get("order",0), t.get("content",""))`. -/
def sortKey (projects_map : List (String × String)) (t : Task) : String × Int × String :=
  (project_name projects_map t, t.order.getD 0, t.content.getD "")

/-- Python's `<` on lists of characters: strict lexicographic comparison by
code point, exactly CPython's string comparison. -/
def ltCh : List Char → List Char → Bool
  | _, [] => false
  | [], _ :: _ => true
  | c :: cs, d :: ds => if c < d then true else if d < c then false else ltCh cs ds

/-- Python's `<` on strings. -/
def strLt (a b : String) : Bool := ltCh a.data b.data

/-- Python's `<=` on strings (total order: `a <= b` iff not `b < a`). -/
def strLe (a b : String) : Bool := !(strLt b a)

/-- Python's lexicographic `<=` on the sort-key tuple. -/
def keyLE (a b : String × Int × String) : Bool :=
  strLt a.1 b.1 ||
    (decide (a.1 = b.1) &&
      (decide (a.2.1 < b.2.1) ||
        (decide (a.2.1 = b.2.1) && strLe a.2.2 b.2.2)))

/-- Task comparison used by `sorted(tasks, key=...)`. -/
def taskLE (projects_map : List (String × String)) (t u : Task) : Bool :=
  keyLE (sortKey projects_map t) (sortKey projects_map u)

/-- The call `sorted(tasks, key=lambda t: (project_name(t), t.get("order",0), t.get("content","")))`:
Python's `sorted` is a stable merge sort, modelled by `List.mergeSort`. -/
def sortTasks (projects_map : List (String × String)) (tasks : List Task) : List Task :=
  tasks.mergeSort (taskLE projects_map)

/-- The header `f"Главное на сегодня\n{now.strftime('%d %b %Y')}\n"`, with the
formatted date as input. -/
def headerStr (dateStr : String) : String :=
  "Главное на сегодня\n" ++ dateStr ++ "\n"

/-- The fixed empty-list notice. -/
def emptyListNotice : String :=
  "Список пуст. Нет задач с меткой @Главное на сегодня."

/-- The three `parts` entries appended per task: the numbered content line,
the italicised project line, and the blank separator. -/
def renderTask (projects_map : List (String × String)) (idx : Nat) (t : Task) : List String :=
  [toString idx ++ ". " ++ md_v2_escape (t.content.getD ("(без названия)")),
   "_" ++ md_v2_escape (projectDisplay projects_map t) ++ "_",
   ""]

/-- Function `compose_message(tasks, projects_map)`, with the current local
date string passed explicitly (the script reads it from the Paris clock). -/
def compose_message (tasks : List Task) (projects_map : List (String × String))
    (dateStr : String) : String :=
  if tasks.isEmpty then
    md_v2_escape (headerStr dateStr) ++ "\n" ++ md_v2_escape emptyListNotice
  else
    String.intercalate "\n"
      ([md_v2_escape (headerStr dateStr), ""] ++
        (List.enumFrom 1 (sortTasks projects_map tasks)).flatMap
          (fun p => renderTask projects_map p.1 p.2))

/-- The environment as read by the module prologue (`os.getenv` may
return `None`). -/
structure Env where
  TODOIST_TOKEN : Option String
  TELEGRAM_BOT_TOKEN : Option String
  TELEGRAM_CHAT_ID : Option String

/-- Python truthiness of an optional string: `None` and `""` are falsy. -/
def truthy : Option String → Bool
  | none => false
  | some s => !(s == "")

/-- The module-level check
`if not (TODOIST_TOKEN and TELEGRAM_BOT_TOKEN and TELEGRAM_CHAT_ID)`. -/
def envOk (e : Env) : Bool :=
  truthy e.TODOIST_TOKEN && truthy e.TELEGRAM_BOT_TOKEN && truthy e.TELEGRAM_CHAT_ID

/-- Responses of the two external HTTP services for one run: the Todoist
tasks GET, the Todoist projects GET, and the Telegram send POST (a function
of the message text).  An `Except.error` models `raise_for_status` or a
transport exception. -/
structure NetBehavior where
  tasksResp : Except String (List Task)
  projectsResp : Except String (List Project)
  sendResp : String → Except String String

/-- Terminal outcome of one process run. -/
inductive RunResult where
  | configError
  | skippedWeekend
  | skippedHour
  | sent (ack : String)
  | failed (err : String)
deriving DecidableEq, Repr

/-- Process exit status: `sys.exit(1)` on missing configuration,
`sys.exit(2)` inside the `except` branch, and 0 otherwise. -/
def exitCode : RunResult → Nat
  | .configError => 1
  | .skippedWeekend => 0
  | .skippedHour => 0
  | .sent _ => 0
  | .failed _ => 2

/-- Lines printed to stderr for each outcome. -/
def stderrLines : RunResult → List String
  | .configError => ["ERROR: required env vars TODOIST_TOKEN, TELEGRAM_BOT_TOKEN, TELEGRAM_CHAT_ID"]
  | .failed e => ["ERROR: " ++ e]
  | _ => []

/-- Function `main()`: the weekday/hour gate followed by the guarded
fetch–compose–send pipeline.  The second component counts network
requests actually issued. -/
def main (weekday hour : Nat) (dateStr : String) (net : NetBehavior) : RunResult × Nat :=
  if weekday ≥ 5 then (.skippedWeekend, 0)
  else if hour ≠ 7 then (.skippedHour, 0)
  else
    match net.tasksResp with
    | .error e => (.failed e, 1)
    | .ok rawTasks =>
      match net.projectsResp with
      | .error e => (.failed e, 2)
      | .ok projects =>
        match net.sendResp (compose_message
            (fetch_tasks_with_label TARGET_LABEL_NAMES rawTasks)
            (fetch_projects_map projects) dateStr) with
        | .error e => (.failed e, 3)
        | .ok ack => (.sent ack, 3)

/-- The whole script: the module-level environment check, then `main()`. -/
def runScript (env : Env) (weekday hour : Nat) (dateStr : String)
    (net : NetBehavior) : RunResult × Nat :=
  if envOk env then main weekday hour dateStr net else (.configError, 0)

/-- The run reached the fetch–compose–send pipeline. -/
def proceeds : RunResult → Bool
  | .sent _ => true
  | .failed _ => true
  | _ => false

/-- The run terminated as DONE-SKIPPED. -/
def isSkipped : RunResult → Bool
  | .skippedWeekend => true
  | .skippedHour => true
  | _ => false


/-- Split a character list into lines at newline characters (the effect of
`"\n".join` structure on the final message). -/
def splitLines : List Char → List (List Char)
  | [] => [[]]
  | c :: cs =>
    if c = '\n' then [] :: splitLines cs
    else (splitLines cs).modifyHead (fun l => c :: l)

/-- A numbered-entry tail: one or more further digits then the literal
separator ". ". -/
def numberedTail : List Char → Bool
  | [] => false
  | c :: cs =>
    if c = '.' then
      match cs with
      | c2 :: _ => c2 = ' '
      | [] => false
    else c.isDigit && numberedTail cs

/-- A numbered task entry line as produced by `f"{idx}. {content}"`: leading
digits followed by ". ". -/
def isNumberedLine : List Char → Bool
  | [] => false
  | c :: cs => c.isDigit && numberedTail cs

/-- Count of numbered entry lines in a message. -/
def numberedLineCount (s : String) : Nat :=
  (splitLines s.data).countP isNumberedLine


theorem ltCh_nil_right (l : List Char) : ltCh l [] = false := by
  cases l <;> rfl

theorem ltCh_irrefl (l : List Char) : ltCh l l = false := by
  induction l with
  | nil => rfl
  | cons c cs ih => simp [ltCh, lt_irrefl, ih]

theorem ltCh_trans : ∀ (a b c : List Char),
    ltCh a b = true → ltCh b c = true → ltCh a c = true := by
  intro a
  induction a with
  | nil =>
    intro b c _ h2
    cases c with
    | nil =>
      rw [ltCh_nil_right] at h2
      exact absurd h2 (by simp)
    | cons c0 cs => rfl
  | cons a0 as ih =>
    intro b c h1 h2
    cases b with
    | nil =>
      rw [ltCh_nil_right] at h1
      exact absurd h1 (by simp)
    | cons b0 bs =>
      cases c with
      | nil =>
        rw [ltCh_nil_right] at h2
        exact absurd h2 (by simp)
      | cons c0 cs =>
        simp only [ltCh] at h1 h2 ⊢
        rcases lt_trichotomy a0 b0 with hab | hab | hab <;>
          rcases lt_trichotomy b0 c0 with hbc | hbc | hbc
        · simp [lt_trans hab hbc]
        · subst hbc; simp [hab]
        · exact absurd h2 (by simp [asymm hbc, hbc])
        · subst hab; simp [hbc]
        · subst hab; subst hbc
          rw [if_neg (lt_irrefl a0), if_neg (lt_irrefl a0)] at h1 h2 ⊢
          exact ih _ _ h1 h2
        · exact absurd h2 (by simp [asymm hbc, hbc])
        · exact absurd h1 (by simp [asymm hab, hab])
        · exact absurd h1 (by simp [asymm hab, hab])
        · exact absurd h1 (by simp [asymm hab, hab])

theorem ltCh_conn : ∀ (a b : List Char),
    ltCh a b = false → ltCh b a = false → a = b := by
  intro a
  induction a with
  | nil =>
    intro b h1 _
    cases b with
    | nil => rfl
    | cons b0 bs => exact absurd h1 (by simp [ltCh])
  | cons a0 as ih =>
    intro b h1 h2
    cases b with
    | nil => exact absurd h2 (by simp [ltCh])
    | cons b0 bs =>
      simp only [ltCh] at h1 h2
      rcases lt_trichotomy a0 b0 with hab | hab | hab
      · exact absurd h1 (by simp [hab])
      · subst hab
        rw [if_neg (lt_irrefl a0), if_neg (lt_irrefl a0)] at h1 h2
        rw [ih _ h1 h2]
      · exact absurd h2 (by simp [hab])

theorem ltCh_asymm (a b : List Char) (h : ltCh a b = true) : ltCh b a = false := by
  by_contra hb
  simp only [Bool.not_eq_false] at hb
  have := ltCh_trans a b a h hb
  rw [ltCh_irrefl] at this
  exact absurd this (by simp)


theorem strLt_irrefl (s : String) : strLt s s = false := ltCh_irrefl s.data

theorem strLt_trans {a b c : String} (h1 : strLt a b = true) (h2 : strLt b c = true) :
    strLt a c = true := ltCh_trans a.data b.data c.data h1 h2

theorem strLt_conn {a b : String} (h1 : strLt a b = false) (h2 : strLt b a = false) :
    a = b := by
  cases a with
  | mk da =>
    cases b with
    | mk db =>
      have : da = db := ltCh_conn da db h1 h2
      rw [this]

theorem strLt_asymm {a b : String} (h : strLt a b = true) : strLt b a = false :=
  ltCh_asymm a.data b.data h

theorem strLe_trans {a b c : String} (h1 : strLe a b = true) (h2 : strLe b c = true) :
    strLe a c = true := by
  simp only [strLe, Bool.not_eq_true'] at h1 h2 ⊢
  by_contra hca
  simp only [Bool.not_eq_false] at hca
  rcases Bool.eq_false_or_eq_true (strLt a b) with hab | hab
  · exact absurd (strLt_trans hca hab) (by simp [h2])
  · exact absurd ((strLt_conn hab h1) ▸ hca) (by simp [h2])

theorem keyLE_refl (a : String × Int × String) : keyLE a a = true := by
  simp [keyLE, strLe, strLt_irrefl]

theorem keyLE_total (a b : String × Int × String) : (keyLE a b || keyLE b a) = true := by
  rcases Bool.eq_false_or_eq_true (strLt a.1 b.1) with h1 | h1
  · simp [keyLE, h1]
  · rcases Bool.eq_false_or_eq_true (strLt b.1 a.1) with h2 | h2
    · simp [keyLE, h2]
    · have he : a.1 = b.1 := strLt_conn h1 h2
      rcases lt_trichotomy a.2.1 b.2.1 with hi | hi | hi
      · simp [keyLE, he, hi]
      · rcases Bool.eq_false_or_eq_true (strLt b.2.2 a.2.2) with h3 | h3
        · simp [keyLE, strLe, he, hi, strLt_asymm h3]
        · simp [keyLE, strLe, he, hi, h3]
      · simp [keyLE, he, hi]

theorem keyLE_trans (a b c : String × Int × String)
    (h1 : keyLE a b = true) (h2 : keyLE b c = true) : keyLE a c = true := by
  simp only [keyLE, Bool.or_eq_true, Bool.and_eq_true, decide_eq_true_eq] at h1 h2 ⊢
  rcases h1 with h1 | ⟨he1, h1⟩
  · rcases h2 with h2 | ⟨he2, _⟩
    · exact Or.inl (strLt_trans h1 h2)
    · exact Or.inl (he2 ▸ h1)
  · rcases h2 with h2 | ⟨he2, h2⟩
    · exact Or.inl (he1 ▸ h2)
    · refine Or.inr ⟨he1.trans he2, ?_⟩
      rcases h1 with h1 | ⟨hi1, h1⟩
      · rcases h2 with h2 | ⟨hi2, _⟩
        · exact Or.inl (lt_trans h1 h2)
        · exact Or.inl (hi2 ▸ h1)
      · rcases h2 with h2 | ⟨hi2, h2⟩
        · exact Or.inl (hi1 ▸ h2)
        · exact Or.inr ⟨hi1.trans hi2, strLe_trans h1 h2⟩

theorem taskLE_trans (m : List (String × String)) (t u v : Task)
    (h1 : taskLE m t u) (h2 : taskLE m u v) : taskLE m t v :=
  keyLE_trans _ _ _ h1 h2

theorem taskLE_total (m : List (String × String)) (t u : Task) :
    (taskLE m t u || taskLE m u t) = true :=
  keyLE_total _ _


theorem sortTasks_perm (m : List (String × String)) (ts : List Task) :
    (sortTasks m ts).Perm ts := List.mergeSort_perm ts (taskLE m)

theorem sortTasks_sorted (m : List (String × String)) (ts : List Task) :
    (sortTasks m ts).Pairwise (fun t u => taskLE m t u = true) :=
  List.sorted_mergeSort (fun a b c => taskLE_trans m a b c) (taskLE_total m) ts


theorem sortTasks_stable (m : List (String × String)) (ts : List Task)
    (k : String × Int × String) :
    (sortTasks m ts).filter (fun t => decide (sortKey m t = k)) =
      ts.filter (fun t => decide (sortKey m t = k)) := by
  have hmem : ∀ x ∈ ts.filter (fun t => decide (sortKey m t = k)), sortKey m x = k := by
    intro x hx
    simpa using List.of_mem_filter hx
  have hpair : (ts.filter (fun t => decide (sortKey m t = k))).Pairwise
      (fun t u => taskLE m t u = true) := by
    apply List.pairwise_of_forall_mem_list
    intro a ha b hb
    unfold taskLE
    rw [hmem a ha, hmem b hb]
    exact keyLE_refl k
  have hsub : List.Sublist (ts.filter (fun t => decide (sortKey m t = k))) (sortTasks m ts) :=
    List.sublist_mergeSort (fun a b c => taskLE_trans m a b c) (taskLE_total m)
      hpair (List.filter_sublist ts)
  have hsub2 := hsub.filter (fun t => decide (sortKey m t = k))
  rw [List.filter_eq_self.mpr (fun a ha => by simpa using hmem a ha)] at hsub2
  have hperm : ((sortTasks m ts).filter (fun t => decide (sortKey m t = k))).Perm
      (ts.filter (fun t => decide (sortKey m t = k))) :=
    (List.mergeSort_perm ts (taskLE m)).filter _
  exact (hsub2.eq_of_length hperm.length_eq.symm).symm

theorem sortTasks_empty_project_first (m : List (String × String)) (ts : List Task)
    (i j : Nat) (hi : i < (sortTasks m ts).length) (hj : j < (sortTasks m ts).length)
    (hij : i < j)
    (hj0 : (sortKey m ((sortTasks m ts).get ⟨j, hj⟩)).1 = "") :
    (sortKey m ((sortTasks m ts).get ⟨i, hi⟩)).1 = "" := by
  have hs := sortTasks_sorted m ts
  have hle := (List.pairwise_iff_get.mp hs) ⟨i, hi⟩ ⟨j, hj⟩ hij
  unfold taskLE keyLE at hle
  rw [hj0] at hle
  have hnil : strLt (sortKey m ((sortTasks m ts).get ⟨i, hi⟩)).1 "" = false :=
    ltCh_nil_right _
  simp only [hnil, Bool.false_or, Bool.and_eq_true, decide_eq_true_eq] at hle
  exact hle.1


theorem foldl_append_data (l : List String) (acc : String) :
    (l.foldl (fun r s => r ++ s) acc).data = acc.data ++ (l.map String.data).flatten := by
  induction l generalizing acc with
  | nil => simp
  | cons s l ih => simp [ih, List.append_assoc]

theorem join_data (l : List String) :
    (String.join l).data = (l.map String.data).flatten := by
  simp [String.join, foldl_append_data]

theorem md_v2_escape_data (s : String) : (md_v2_escape s).data = mdEscapeL s.data := by
  unfold md_v2_escape mdEscapeL List.flatMap
  rw [join_data, List.map_map]
  congr 1
  apply List.map_congr_left
  intro c _
  by_cases h : c ∈ escape_chars.data <;>
    simp [escChar, h, Function.comp, String.singleton]

theorem mdEscapeL_append (a b : List Char) :
    mdEscapeL (a ++ b) = mdEscapeL a ++ mdEscapeL b := by
  simp [mdEscapeL]

theorem mdEscapeL_cons (c : Char) (cs : List Char) :
    mdEscapeL (c :: cs) = escChar c ++ mdEscapeL cs := by
  simp [mdEscapeL]

theorem mdEscapeL_length (cs : List Char) :
    (mdEscapeL cs).length =
      cs.length + cs.countP (fun c => decide (c ∈ escape_chars.data)) := by
  induction cs with
  | nil => simp [mdEscapeL]
  | cons c cs ih =>
    by_cases h : c ∈ escape_chars.data <;>
      simp [mdEscapeL_cons, escChar, h, ih, List.countP_cons] <;> omega
theorem splitLines_ne_nil (cs : List Char) : splitLines cs ≠ [] := by
  induction cs with
  | nil => simp [splitLines]
  | cons c cs ih =>
    by_cases h : c = '\n'
    · simp [splitLines, h]
    · cases hs : splitLines cs with
      | nil => exact absurd hs ih
      | cons l ls => simp [splitLines, h, hs]

theorem numberedTail_mdEscapeL (u : List Char) : numberedTail (mdEscapeL u) = false := by
  induction u with
  | nil => simp [mdEscapeL, numberedTail]
  | cons c cs ih =>
    rw [mdEscapeL_cons]
    by_cases h : c ∈ escape_chars.data
    · have : escChar c = ['\\', c] := by simp [escChar, h]
      rw [this]
      simp [numberedTail]
    · have hne : c ≠ '.' := by
        intro hc
        exact h (hc ▸ (by decide : ('.' : Char) ∈ escape_chars.data))
      have : escChar c = [c] := by simp [escChar, h]
      rw [this]
      simp [numberedTail, hne, ih]

theorem isNumberedLine_mdEscapeL (u : List Char) : isNumberedLine (mdEscapeL u) = false := by
  cases u with
  | nil => simp [mdEscapeL, isNumberedLine]
  | cons c cs =>
    rw [mdEscapeL_cons]
    by_cases h : c ∈ escape_chars.data
    · have : escChar c = ['\\', c] := by simp [escChar, h]
      rw [this]
      simp [isNumberedLine]
    · have : escChar c = [c] := by simp [escChar, h]
      rw [this]
      simp [isNumberedLine, numberedTail_mdEscapeL]

theorem splitLines_mdEscapeL (u : List Char) :
    splitLines (mdEscapeL u) = (splitLines u).map mdEscapeL := by
  induction u with
  | nil => simp [mdEscapeL, splitLines]
  | cons c cs ih =>
    obtain ⟨l, ls, hcs⟩ : ∃ l ls, splitLines cs = l :: ls := by
      cases h : splitLines cs with
      | nil => exact absurd h (splitLines_ne_nil cs)
      | cons a b => exact ⟨a, b, rfl⟩
    have ih' : splitLines (mdEscapeL cs) = mdEscapeL l :: ls.map mdEscapeL := by
      rw [ih, hcs, List.map_cons]
    by_cases hnl : c = '\n'
    · subst hnl
      have h1 : mdEscapeL ('\n' :: cs) = '\n' :: mdEscapeL cs := by
        have : ('\n' : Char) ∉ escape_chars.data := by decide
        simp [mdEscapeL_cons, escChar, this]
      rw [h1]
      rw [show splitLines ('\n' :: mdEscapeL cs) = [] :: splitLines (mdEscapeL cs) by
        simp [splitLines]]
      rw [show splitLines ('\n' :: cs) = [] :: splitLines cs by simp [splitLines]]
      rw [ih]
      simp [mdEscapeL]
    · by_cases hesc : c ∈ escape_chars.data
      · have h1 : mdEscapeL (c :: cs) = '\\' :: c :: mdEscapeL cs := by
          simp [mdEscapeL_cons, escChar, hesc]
        have hbs : ('\\' : Char) ≠ '\n' := by decide
        rw [h1]
        rw [show splitLines ('\\' :: c :: mdEscapeL cs) =
            (splitLines (c :: mdEscapeL cs)).modifyHead (fun l => '\\' :: l) by
          simp [splitLines, hbs]]
        rw [show splitLines (c :: mdEscapeL cs) =
            (splitLines (mdEscapeL cs)).modifyHead (fun l => c :: l) by
          simp [splitLines, hnl]]
        rw [show splitLines (c :: cs) = (splitLines cs).modifyHead (fun l => c :: l) by
          simp [splitLines, hnl]]
        rw [ih', hcs]
        simp [List.modifyHead_cons, mdEscapeL_cons, escChar, hesc]
      · have h1 : mdEscapeL (c :: cs) = c :: mdEscapeL cs := by
          simp [mdEscapeL_cons, escChar, hesc]
        rw [h1]
        rw [show splitLines (c :: mdEscapeL cs) =
            (splitLines (mdEscapeL cs)).modifyHead (fun l => c :: l) by
          simp [splitLines, hnl]]
        rw [show splitLines (c :: cs) = (splitLines cs).modifyHead (fun l => c :: l) by
          simp [splitLines, hnl]]
        rw [ih', hcs]
        simp [List.modifyHead_cons, mdEscapeL_cons, escChar, hesc]

theorem numberedLineCount_mdEscapeL (u : List Char) :
    (splitLines (mdEscapeL u)).countP isNumberedLine = 0 := by
  rw [splitLines_mdEscapeL, List.countP_map]
  apply List.countP_eq_zero.mpr
  intro a _
  simp [Function.comp, isNumberedLine_mdEscapeL]


/-- C1: the run reaches the fetch-compose-send pipeline iff the local weekday
is Monday-Friday (0-4) and the local hour equals 7; weekend instants and
wrong-hour business-day instants terminate as DONE-SKIPPED with exit status 0. -/
theorem claim_time_gate (env : Env) (henv : envOk env = true) (w h : Nat) (hw : w < 7)
    (d : String) (net : NetBehavior) :
    (proceeds (runScript env w h d net).1 = true ↔ (w < 5 ∧ h = 7))
    ∧ (isSkipped (runScript env w h d net).1 = true ↔ ¬(w < 5 ∧ h = 7))
    ∧ (5 ≤ w → (runScript env w h d net).1 = RunResult.skippedWeekend
        ∧ exitCode (runScript env w h d net).1 = 0)
    ∧ (w < 5 → h ≠ 7 → (runScript env w h d net).1 = RunResult.skippedHour
        ∧ exitCode (runScript env w h d net).1 = 0) := by
  unfold runScript main
  rw [henv]
  simp only [if_true]
  by_cases h5 : 5 ≤ w
  · have hnw : ¬ w < 5 := not_lt.mpr h5
    simp [h5, hnw, proceeds, isSkipped, exitCode]
  · have h5' : w < 5 := lt_of_not_ge h5
    rw [if_neg h5]
    by_cases h7 : h = 7
    · subst h7
      rw [if_neg (by simp)]
      rcases net with ⟨tr, pr, sr⟩
      cases tr with
      | error e => simp [proceeds, isSkipped, exitCode, h5', h5]
      | ok ts =>
        cases pr with
        | error e => simp [proceeds, isSkipped, exitCode, h5', h5]
        | ok ps =>
          cases hs : sr (compose_message (fetch_tasks_with_label TARGET_LABEL_NAMES ts)
              (fetch_projects_map ps) d) with
          | error e => simp [hs, proceeds, isSkipped, exitCode, h5', h5]
          | ok a => simp [hs, proceeds, isSkipped, exitCode, h5', h5]
    · rw [if_pos h7]
      simp [proceeds, isSkipped, exitCode, h5', h5, h7]

/-- C6: if any of the three required environment variables is missing, the
process aborts with the distinct status 1 (the only outcome with that status)
before any network call is attempted (zero requests issued). -/
theorem claim_missing_env (env : Env) (w h : Nat) (d : String) (net : NetBehavior)
    (hmiss : env.TODOIST_TOKEN = none ∨ env.TELEGRAM_BOT_TOKEN = none ∨
      env.TELEGRAM_CHAT_ID = none) :
    runScript env w h d net = (RunResult.configError, 0)
    ∧ exitCode RunResult.configError = 1
    ∧ (∀ r : RunResult, exitCode r = 1 → r = RunResult.configError) := by
  have hok : envOk env = false := by
    rcases hmiss with hm | hm | hm <;> simp [envOk, hm, truthy]
  refine ⟨by simp [runScript, hok], rfl, ?_⟩
  intro r hr
  cases r <;> simp [exitCode] at hr ⊢

/-- C7: every runtime error raised during the gated pipeline is caught once at
the top level, logged to stderr with the exception text, and exits with status 2,
distinct from the missing-configuration status 1 and from 0; a TimeGate skip is
not an error and exits with status 0 and no stderr output. -/
theorem claim_runtime_errors (env : Env) (henv : envOk env = true) (w h : Nat)
    (hw : w < 5) (hh : h = 7) (d : String) (net : NetBehavior) :
    (∀ e, net.tasksResp = Except.error e →
      (runScript env w h d net).1 = RunResult.failed e)
    ∧ (∀ ts e, net.tasksResp = Except.ok ts → net.projectsResp = Except.error e →
        (runScript env w h d net).1 = RunResult.failed e)
    ∧ (∀ ts ps e, net.tasksResp = Except.ok ts → net.projectsResp = Except.ok ps →
        net.sendResp (compose_message (fetch_tasks_with_label TARGET_LABEL_NAMES ts)
          (fetch_projects_map ps) d) = Except.error e →
        (runScript env w h d net).1 = RunResult.failed e)
    ∧ (∀ e, exitCode (RunResult.failed e) = 2
        ∧ stderrLines (RunResult.failed e) = ["ERROR: " ++ e]
        ∧ exitCode (RunResult.failed e) ≠ exitCode RunResult.configError
        ∧ exitCode (RunResult.failed e) ≠ 0)
    ∧ (exitCode RunResult.skippedWeekend = 0 ∧ exitCode RunResult.skippedHour = 0
        ∧ stderrLines RunResult.skippedWeekend = [] ∧ stderrLines RunResult.skippedHour = []) := by
  subst hh
  have hn5 : ¬ 5 ≤ w := not_le.mpr hw
  refine ⟨?_, ?_, ?_, by simp [exitCode, stderrLines], by simp [exitCode, stderrLines]⟩
  · intro e he
    simp [runScript, main, henv, hn5, he]
  · intro ts e hts hpr
    simp [runScript, main, henv, hn5, hts, hpr]
  · intro ts ps e hts hpr hsend
    simp [runScript, main, henv, hn5, hts, hpr, hsend]

/-- C5: compose_message is a pure function of the filtered task list, the
project index and the current local date string: equal inputs give the
identical composed message. -/
theorem claim_compose_pure (t1 t2 : List Task) (m1 m2 : List (String × String))
    (d1 d2 : String) (ht : t1 = t2) (hm : m1 = m2) (hd : d1 = d2) :
    compose_message t1 m1 d1 = compose_message t2 m2 d2 := by
  rw [ht, hm, hd]

/-- C2: md_v2_escape prepends exactly one backslash to each character of the
fixed punctuation set and leaves every other character unchanged (stated as the
per-character flatMap form plus the length accounting); escaping "a.b!" yields
"a\\.b\\!". -/
theorem claim_md_escape :
    (∀ s : String, (md_v2_escape s).data =
      s.data.flatMap (fun c => if c ∈ escape_chars.data then ['\\', c] else [c]))
    ∧ (∀ s : String, (md_v2_escape s).data.length =
        s.data.length + s.data.countP (fun c => decide (c ∈ escape_chars.data)))
    ∧ md_v2_escape ("a.b!") = "a\\.b\\!" := by
  refine ⟨?_, ?_, by decide⟩
  · intro s
    rw [md_v2_escape_data]
    rfl
  · intro s
    rw [md_v2_escape_data, mdEscapeL_length]

/-- C10: md_v2_escape is not idempotent: escaping "a.b" twice yields a
different string than escaping it once, because the inserted backslash is
followed by a character that is escaped again. -/
theorem claim_md_escape_not_idempotent :
    md_v2_escape (md_v2_escape ("a.b")) ≠ md_v2_escape ("a.b") := by decide



/-- C8: on an empty filtered task list the composer returns exactly the escaped
header, a newline, and the escaped fixed empty-list notice, and the resulting
message contains zero numbered task entries. -/
theorem claim_compose_empty (m : List (String × String)) (d : String) :
    compose_message [] m d =
      md_v2_escape (headerStr d) ++ "\n" ++ md_v2_escape emptyListNotice
    ∧ numberedLineCount (compose_message [] m d) = 0 := by
  refine ⟨rfl, ?_⟩
  show (splitLines (compose_message [] m d).data).countP isNumberedLine = 0
  have h1 : (compose_message [] m d).data =
      mdEscapeL ((headerStr d).data ++ '\n' :: emptyListNotice.data) := by
    show (md_v2_escape (headerStr d) ++ "\n" ++ md_v2_escape emptyListNotice).data = _
    rw [String.data_append, String.data_append, md_v2_escape_data, md_v2_escape_data,
      mdEscapeL_append, mdEscapeL_cons]
    have hnl : escChar '\n' = ['\n'] := by decide
    rw [hnl]
    have hd : ("\n" : String).data = ['\n'] := rfl
    rw [hd, List.append_assoc]
  rw [h1]
  exact numberedLineCount_mdEscapeL _

/-- C3: for every non-empty filtered task list the composer renders tasks in
the order produced by a stable sort ascending on the tuple (resolved project
name, display order, content): the sorted list is a permutation of the input,
pairwise ordered by the key, and stable (tasks of equal key keep their input
order); on the example tasks (proj B, order 1, content x) and (proj A, order 2,
content y) the output order is [y, x]. -/
theorem claim_compose_sort (tasks : List Task) (m : List (String × String))
    (hne : tasks ≠ []) :
    (sortTasks m tasks).Perm tasks
    ∧ (sortTasks m tasks).Pairwise (fun t u => taskLE m t u = true)
    ∧ (∀ k, (sortTasks m tasks).filter (fun t => decide (sortKey m t = k)) =
        tasks.filter (fun t => decide (sortKey m t = k)))
    ∧ (∀ d, compose_message tasks m d = String.intercalate "\n"
        ([md_v2_escape (headerStr d), ""] ++
          (List.enumFrom 1 (sortTasks m tasks)).flatMap (fun p => renderTask m p.1 p.2)))
    ∧ sortTasks [("pA", "A"), ("pB", "B")]
        [⟨some ("x"), none, some ("pB"), some 1⟩, ⟨some ("y"), none, some ("pA"), some 2⟩] =
      [⟨some ("y"), none, some ("pA"), some 2⟩, ⟨some ("x"), none, some ("pB"), some 1⟩] := by
  refine ⟨sortTasks_perm m tasks, sortTasks_sorted m tasks, sortTasks_stable m tasks, ?_, ?_⟩
  · intro d
    cases tasks with
    | nil => exact absurd rfl hne
    | cons t ts => rfl
  · have hle : taskLE [("pA", "A"), ("pB", "B")]
        (⟨some ("x"), none, some ("pB"), some 1⟩ : Task)
        (⟨some ("y"), none, some ("pA"), some 2⟩ : Task) = false := by decide
    unfold sortTasks
    rw [List.mergeSort]
    simp only [List.splitInTwo, List.splitAt, List.splitAt.go]
    simp [List.mergeSort, List.merge, hle]

/-- C4: a fetched task is kept iff its label list intersects the fixed
two-spelling target label set; a task whose labels are exactly ["other"] is
excluded. -/
theorem claim_label_filter (tasks : List Task) (t : Task) :
    (t ∈ fetch_tasks_with_label TARGET_LABEL_NAMES tasks ↔
      t ∈ tasks ∧ ∃ lbl ∈ t.labels.getD [], lbl ∈ TARGET_LABEL_NAMES)
    ∧ (t.labels = some ["other"] → t ∉ fetch_tasks_with_label TARGET_LABEL_NAMES tasks) := by
  have hiff : t ∈ fetch_tasks_with_label TARGET_LABEL_NAMES tasks ↔
      t ∈ tasks ∧ ∃ lbl ∈ t.labels.getD [], lbl ∈ TARGET_LABEL_NAMES := by
    rw [fetch_tasks_with_label, List.mem_filter]
    simp [List.any_eq_true]
  refine ⟨hiff, ?_⟩
  intro hl hmem
  rcases (hiff.mp hmem).2 with ⟨lbl, hlbl, hT⟩
  rw [hl] at hlbl
  simp at hlbl
  subst hlbl
  simp [TARGET_LABEL_NAMES] at hT

/-- C9: a task whose project reference is absent or unresolvable in the project
index gets the empty string as primary sort-key component while rendering with
the fixed placeholder project line, and in the sorted output every task with an
empty resolved project name precedes every task with a non-empty one. -/
theorem claim_unresolvable_project (m : List (String × String)) (t : Task)
    (hu : ∀ pr ∈ m, pr.1 ≠ t.project_id.getD "") :
    (sortKey m t).1 = ""
    ∧ projectDisplay m t = "Без проекта"
    ∧ (∀ idx, renderTask m idx t =
        [toString idx ++ ". " ++ md_v2_escape (t.content.getD ("(без названия)")),
         "_Без проекта_", ""])
    ∧ (∀ tasks : List Task, ∀ i j : Nat, ∀ hi : i < (sortTasks m tasks).length,
        ∀ hj : j < (sortTasks m tasks).length, i < j →
        (sortKey m ((sortTasks m tasks).get ⟨j, hj⟩)).1 = "" →
        (sortKey m ((sortTasks m tasks).get ⟨i, hi⟩)).1 = "") := by
  have hfind : m.reverse.find? (fun pr => pr.1 == t.project_id.getD "") = none := by
    apply List.find?_eq_none.mpr
    intro x hx
    have hxm : x ∈ m := List.mem_reverse.mp hx
    simp [hu x hxm]
  have hdisp : projectDisplay m t = "Без проекта" := by
    unfold projectDisplay dictGet
    rw [hfind]
  refine ⟨?_, hdisp, ?_, ?_⟩
  · show project_name m t = ""
    unfold project_name dictGet
    rw [hfind]
  · intro idx
    unfold renderTask
    rw [hdisp]
    have h1 : md_v2_escape ("Без проекта") = "Без проекта" := by decide
    rw [h1]
    have h2 : ("_" ++ "Без проекта" ++ "_" : String) = "_Без проекта_" := by decide
    rw [h2]
  · intro tasks i j hi hj hij hj0
    exact sortTasks_empty_project_first m tasks i j hi hj hij hj0


theorem claim_time_gate_witness :
    proceeds (runScript ⟨some ("t"), some ("b"), some ("c")⟩ 0 7 ("01 Jan 2025")
        ⟨Except.ok [], Except.ok [], fun _ => Except.ok ("ok")⟩).1 = true ↔ (0 < 5 ∧ 7 = 7) :=
  (claim_time_gate ⟨some ("t"), some ("b"), some ("c")⟩ (by decide) 0 7 (by decide)
    ("01 Jan 2025") ⟨Except.ok [], Except.ok [], fun _ => Except.ok ("ok")⟩).1

theorem claim_missing_env_witness :
    runScript ⟨none, some ("b"), some ("c")⟩ 0 7 ("d")
        ⟨Except.ok [], Except.ok [], fun _ => Except.ok ("ok")⟩ = (RunResult.configError, 0) :=
  (claim_missing_env ⟨none, some ("b"), some ("c")⟩ 0 7 ("d")
    ⟨Except.ok [], Except.ok [], fun _ => Except.ok ("ok")⟩ (Or.inl rfl)).1

theorem claim_runtime_errors_witness :
    (runScript ⟨some ("t"), some ("b"), some ("c")⟩ 0 7 ("d")
        ⟨Except.error ("boom"), Except.ok [], fun _ => Except.ok ("ok")⟩).1 =
      RunResult.failed ("boom") :=
  (claim_runtime_errors ⟨some ("t"), some ("b"), some ("c")⟩ (by decide) 0 7 (by decide) rfl
    ("d") ⟨Except.error ("boom"), Except.ok [], fun _ => Except.ok ("ok")⟩).1 ("boom") rfl

theorem claim_compose_pure_witness :
    compose_message [] [] ("d") = compose_message [] [] ("d") :=
  claim_compose_pure [] [] [] [] ("d") ("d") rfl rfl rfl

theorem claim_compose_sort_witness :
    (sortTasks [] [(⟨some ("z"), none, none, none⟩ : Task)]).Perm
      [(⟨some ("z"), none, none, none⟩ : Task)] :=
  (claim_compose_sort [⟨some ("z"), none, none, none⟩] [] (by simp)).1

theorem claim_label_filter_witness :
    (⟨some ("w"), some (["other"]), none, none⟩ : Task) ∉
      fetch_tasks_with_label TARGET_LABEL_NAMES [⟨some ("w"), some (["other"]), none, none⟩] :=
  (claim_label_filter [⟨some ("w"), some (["other"]), none, none⟩]
    ⟨some ("w"), some (["other"]), none, none⟩).2 rfl

theorem claim_unresolvable_project_witness :
    (sortKey [("p1", "Home")] (⟨some ("z"), none, none, none⟩ : Task)).1 = "" :=
  (claim_unresolvable_project [("p1", "Home")] ⟨some ("z"), none, none, none⟩
    (by decide)).1

end SendTodoistToday
